import Mathlib

/-!
Verification of the backup/restore orchestrator of `cli/account_command.go`
(the `account backup` and `account restore` commands).

The two orchestrators `backupAction` and `restoreAction` are embedded as pure
Lean functions.  External effects (the stream manager, the confirmation
prompt, the filesystem, the single-stream backup/restore primitives) are
supplied as oracle values in an environment record, and every externally
visible action the orchestrator performs is recorded in an event trace, in
chronological order.  Machine integers that can overflow (the `uint64` byte
total and the `int` consumer total) are modelled with explicit wrap-around.
-/

set_option autoImplicit false

namespace NatsCli

/-- Addition of two `uint64` values (Go wraps unsigned arithmetic mod 2^64). -/
def u64add (a b : Nat) : Nat := (a + b) % 2 ^ 64

/-- Addition of two Go `int` (64-bit signed) values; Go two's-complement
arithmetic wraps into the interval [-2^63, 2^63). -/
def i64add (a b : Int) : Int := (a + b + 2 ^ 63) % 2 ^ 64 - 2 ^ 63

/-- The result of `s.LatestState()` for one stream: the byte count and the
consumer count of the stream (`api.StreamState.Bytes` is `uint64`,
`api.StreamState.Consumers` is a non-negative `int` count). -/
structure StreamState where
  bytes : Nat
  consumers : Nat
  deriving DecidableEq, Repr

/-- The error a `backupStream` invocation can produce.  The distinguished
`memoryStreamNotSupported` case models the sentinel error
`jsm.ErrMemoryStreamNotSupported` that the orchestrator tests with
`errors.Is`; every other error is carried as its rendered message. -/
inductive BackupErr where
  | memoryStreamNotSupported
  | other (msg : String)
  deriving DecidableEq, Repr

/-- The rendered message of a backup error, as `%v` and `%s` format it.
Modelled from the spec: the sentinel error value lives in the external
`jsm.go` library; its concrete text is irrelevant to every claim. -/
def BackupErr.msg : BackupErr → String
  | .memoryStreamNotSupported => "memory streams do not support snapshots"
  | .other m => m

/-- One stream handle as enumerated by `mgr.Streams()`: its name and the
result of querying its latest state.  Modelled from the spec: `LatestState`
lives in the external `jsm.go` library; per the spec (§4.2 step 2 and §6) a
failed state query yields the zero state together with the error, and the
orchestrator discards the error (`state, _ := s.LatestState()`), so a failed
query contributes the zero state.  `latestState = none` models the failing
query. -/
structure StreamHandle where
  name : String
  latestState : Option StreamState
  deriving DecidableEq, Repr

/-- The state value the orchestrator reads from `state, _ := s.LatestState()`:
the queried state on success, the zero `api.StreamState` on failure. -/
def StreamHandle.stateValue (s : StreamHandle) : StreamState :=
  s.latestState.getD ⟨0, 0⟩

/-- The flag fields of `actCmd` that the two orchestrators read. -/
structure actCmd where
  backupDirectory : String
  healthCheck : Bool
  snapShotConsumers : Bool
  force : Bool
  failOnWarn : Bool
  placementCluster : String
  placementTags : List String
  deriving DecidableEq, Repr

/-- Model of `filepath.Join(root, name)` for the paths the orchestrators build. -/
def pathJoin (root name : String) : String := root ++ "/" ++ name

/-- One invocation of the single-stream Backup Primitive.  Modelled from the
spec: `backupStream` itself is outside the visible source, only its call site
`backupStream(s, false, c.snapShotConsumers, c.healthCheck, filepath.Join(c.backupDirectory, s.Name()))`
is visible.  §4.2 step 5 identifies the call's boolean arguments: the
consumers flag is passed as `includeConsumers` and the health-check flag as
`verifyHealth`; the remaining literal `false` of the call site is bound to
the remaining boolean parameter of the §6 signature,
`includeSubjectFilters`. -/
structure BackupCall where
  stream : String
  verifyHealth : Bool
  includeConsumers : Bool
  includeSubjectFilters : Bool
  targetDir : String
  deriving DecidableEq, Repr

/-- The backup-primitive invocation `backupAction` builds for stream `s`. -/
def mkBackupCall (c : actCmd) (s : StreamHandle) : BackupCall :=
  { stream := s.name
    verifyHealth := c.healthCheck
    includeConsumers := c.snapShotConsumers
    includeSubjectFilters := false
    targetDir := pathJoin c.backupDirectory s.name }

/-- Externally visible actions of one `backupAction` run, in order. -/
inductive Event where
  /-- the aggregate summary printed before confirmation: stream count,
  total bytes, total consumers -/
  | summary (streams : Nat) (bytes : Nat) (consumers : Int)
  /-- the gate `askConfirmation` was invoked -/
  | confirmAsked
  /-- the call `os.MkdirAll(c.backupDirectory, 0700)` succeeded: the directory exists -/
  | mkdirDone (dir : String)
  /-- the Backup Primitive was invoked -/
  | backupCall (call : BackupCall)
  /-- the run recorded a Warning for this stream (appended to `warns`) -/
  | warnRecorded (stream : String)
  /-- the run recorded a Failure for this stream (appended to `errs`) -/
  | failRecorded (stream : String)
  deriving DecidableEq, Repr

/-- Whether an event is a filesystem change (directory creation or a
backup-primitive call, which writes the artifact directory). -/
def Event.isFsChange : Event → Bool
  | .mkdirDone _ => true
  | .backupCall _ => true
  | _ => false

/-- Whether an event is an invocation of the confirmation gate. -/
def Event.isConfirm : Event → Bool
  | .confirmAsked => true
  | _ => false

/-- Projection of the backup-primitive invocations out of a trace. -/
def Event.callOf : Event → Option BackupCall
  | .backupCall c => some c
  | _ => none

/-- The oracle environment of one `backupAction` run: the results the
external collaborators return when the orchestrator consults them. -/
structure BackupEnv where
  /-- result of `mgr.Streams()` -/
  streamsResult : Except String (List StreamHandle)
  /-- result of `askConfirmation("Perform backup", false)` -/
  confirm : Except String Bool
  /-- error of `os.MkdirAll(c.backupDirectory, 0700)`; `none` is success -/
  mkdirErr : Option String
  /-- result of the Backup Primitive for a given invocation; `none` is
  success -/
  backupOutcome : BackupCall → Option BackupErr

/-- The totals loop of `backupAction`:
`for _, s := range streams { state, _ := s.LatestState(); totalConsumers += state.Consumers; totalSize += state.Bytes }`
with `totalSize` a `uint64` and `totalConsumers` an `int`. -/
def accumulateTotals (streams : List StreamHandle) : Nat × Int :=
  streams.foldl
    (fun acc s => (u64add acc.1 s.stateValue.bytes, i64add acc.2 s.stateValue.consumers))
    (0, 0)

/-- The per-stream backup loop of `backupAction`: for each stream invoke the
Backup Primitive on `root/streamName`; the sentinel memory-stream error is
appended to `warns`, any other error to `errs`, and the loop always continues
to the next stream.  Returns `(errs, warns, events)` in iteration order. -/
def backupLoop (c : actCmd) (outcome : BackupCall → Option BackupErr) :
    List StreamHandle → List String × List String × List Event
  | [] => ([], [], [])
  | s :: rest =>
    let call := mkBackupCall c s
    let r := backupLoop c outcome rest
    match outcome call with
    | some .memoryStreamNotSupported =>
        (r.1, (s.name ++ ": " ++ BackupErr.memoryStreamNotSupported.msg) :: r.2.1,
          .backupCall call :: .warnRecorded s.name :: r.2.2)
    | some (.other m) =>
        ((s.name ++ ": " ++ m) :: r.1, r.2.1,
          .backupCall call :: .failRecorded s.name :: r.2.2)
    | none => (r.1, r.2.1, .backupCall call :: r.2.2)

/-- The part of `backupAction` after the confirmation gate has been passed:
create the destination root directory (aborting on failure), run the
per-stream backup loop, and compute the final run result
`len(errs) > 0 || len(warns) > 0 && c.failOnWarn`.  `tr` is the trace
accumulated so far. -/
def backupPhase (c : actCmd) (env : BackupEnv) (streams : List StreamHandle)
    (tr : List Event) : Except String Unit × List Event :=
  match env.mkdirErr with
  | some e => (.error e, tr)
  | none =>
    let r := backupLoop c env.backupOutcome streams
    let tr := tr ++ [.mkdirDone c.backupDirectory] ++ r.2.2
    if r.1.length > 0 || r.2.1.length > 0 && c.failOnWarn then
      (.error "backup failed", tr)
    else (.ok (), tr)

/-- The `account backup` orchestrator, `(c *actCmd) backupAction`.  Returns
the Go `error` result (`.ok ()` for `nil`) and the chronological event
trace. -/
def backupAction (c : actCmd) (env : BackupEnv) : Except String Unit × List Event :=
  match env.streamsResult with
  | .error e => (.error e, [])
  | .ok streams =>
    if streams.length = 0 then (.error "no streams found", [])
    else
      let totals := accumulateTotals streams
      let pre : List Event := [.summary streams.length totals.1 totals.2]
      if !c.force then
        match env.confirm with
        | .error e => (.error e, pre ++ [.confirmAsked])
        | .ok false => (.ok (), pre ++ [.confirmAsked])
        | .ok true => backupPhase c env streams (pre ++ [.confirmAsked])
      else backupPhase c env streams pre

/-- One entry of `os.ReadDir(c.backupDirectory)` together with the oracle
answers the run obtains about it.  `isDir` is `d.IsDir()` as reported by the
directory listing (false for a symbolic link, even one pointing at a
directory).  `manifestStat` is whether `os.Stat(root/name/"backup.json")`
succeeds; `os.Stat` follows symbolic links, so it can succeed for an entry
whose `IsDir()` is false.  `restoreResult` is the error the single-stream
Restore Primitive (`streamCmd.restoreAction`, outside the visible source)
returns for this artifact; `none` is success. -/
structure DirEntry where
  name : String
  isDir : Bool
  manifestStat : Bool
  restoreResult : Option String
  deriving DecidableEq, Repr

/-- One invocation of the single-stream Restore Primitive: the artifact
directory and the placement constraint handed to it (the orchestrator builds
`streamCmd{msgID: -1, showProgress: false, placementCluster: ..., placementTags: ...}`
and sets its `backupDirectory` before each call). -/
structure RestoreCall where
  backupDirectory : String
  placementCluster : String
  placementTags : List String
  deriving DecidableEq, Repr

/-- The result of one `restoreAction` run.  `err` is a Go `error` returned to
the caller; `fatal` is a process abort through `fisk.Fatalf` or a firing
`fisk.FatalIfError`. -/
inductive RestoreOutcome where
  | ok
  | err (msg : String)
  | fatal (msg : String)
  deriving DecidableEq, Repr

/-- The oracle environment of one `restoreAction` run. -/
structure RestoreEnv where
  /-- result of `mgr.StreamNames(nil)`: the stream names already on the
  target account -/
  streamNames : Except String (List String)
  /-- result of `os.ReadDir(c.backupDirectory)` -/
  readDir : Except String (List DirEntry)

/-- The validation loop of `restoreAction`, entry by entry in listing order.
Returns the fatal message of the first entry that fails validation, `none`
when every entry passes.  The source's non-directory branch is
`if !d.IsDir() { fisk.FatalIfError(err, "expected a directory") }`, where
`err` is the variable already nil-checked after `os.ReadDir`, so the branch
checks nil and never aborts; it is therefore a no-op here and an entry with
`isDir = false` is not rejected by it. -/
def validateEntries (existingStreams : List String) : List DirEntry → Option String
  | [] => none
  | d :: rest =>
    if existingStreams.contains d.name then
      some ("stream \x22" ++ d.name ++ "\x22 exists already")
    else if !d.manifestStat then
      some "expected backup.json"
    else validateEntries existingStreams rest

/-- The restore loop of `restoreAction`: for each entry, in listing order,
invoke the Restore Primitive on `root/name` with the run's placement
constraint; the first failing restore is fatal for the run and no further
entry is attempted.  Returns the outcome and the invocations made. -/
def restoreLoop (c : actCmd) : List DirEntry → RestoreOutcome × List RestoreCall
  | [] => (.ok, [])
  | d :: rest =>
    let call : RestoreCall :=
      { backupDirectory := pathJoin c.backupDirectory d.name
        placementCluster := c.placementCluster
        placementTags := c.placementTags }
    match d.restoreResult with
    | some _ => (.fatal ("restore for " ++ d.name ++ " failed"), [call])
    | none =>
      let r := restoreLoop c rest
      (r.1, call :: r.2)

/-- The `account restore` orchestrator, `(c *actCmd) restoreAction`.  Returns
the run outcome and the Restore Primitive invocations, in order. -/
def restoreAction (c : actCmd) (env : RestoreEnv) : RestoreOutcome × List RestoreCall :=
  match env.streamNames with
  | .error e => (.err e, [])
  | .ok names =>
    match env.readDir with
    | .error _ => (.fatal "setup failed", [])
    | .ok de =>
      match validateEntries names de with
      | some m => (.fatal m, [])
      | none => restoreLoop c de

/-! Spec-side classifiers and trace projections used only to state the
claims; the orchestrator definitions above never mention them. -/

/-- Whether a backup-primitive result is the distinguished memory-stream
Warning condition. -/
def isMemoryErr : Option BackupErr → Bool
  | some .memoryStreamNotSupported => true
  | _ => false

/-- Whether a backup-primitive result is a generic Failure (any error other
than the memory-stream sentinel). -/
def isOtherErr : Option BackupErr → Bool
  | some (.other _) => true
  | _ => false

/-- Projection of the recorded-Warning stream names out of a trace. -/
def Event.warnOf : Event → Option String
  | .warnRecorded s => some s
  | _ => none

/-- Projection of the recorded-Failure stream names out of a trace. -/
def Event.failOf : Event → Option String
  | .failRecorded s => some s
  | _ => none

/-- The byte count the totals loop reads for one stream: the queried value,
zero when the state query failed. -/
def bytesRead (s : StreamHandle) : Nat :=
  match s.latestState with
  | some st => st.bytes
  | none => 0

/-- The consumer count the totals loop reads for one stream: the queried
value, zero when the state query failed. -/
def consumersRead (s : StreamHandle) : Nat :=
  match s.latestState with
  | some st => st.consumers
  | none => 0

/-- Spec-side: the prefix of the artifact entries a restore run attempts —
all entries up to and including the first one whose restore fails. -/
def takeThroughFirstFailure : List DirEntry → List DirEntry
  | [] => []
  | d :: rest =>
    match d.restoreResult with
    | some _ => [d]
    | none => d :: takeThroughFirstFailure rest

/-! Concrete fixtures used by the witness theorems. -/

/-- A stream whose state query succeeds. -/
def streamA : StreamHandle := { name := "ORDERS", latestState := some ⟨100, 2⟩ }

/-- A stream whose state query fails (contributes zero to the totals). -/
def streamB : StreamHandle := { name := "EVENTS", latestState := none }

/-- A memory-only stream: its backup yields the sentinel Warning. -/
def streamC : StreamHandle := { name := "CACHE", latestState := some ⟨7, 1⟩ }

/-- A baseline flag record: no force, warnings not critical. -/
def cmdBase : actCmd :=
  { backupDirectory := "backups", healthCheck := true, snapShotConsumers := true,
    force := false, failOnWarn := false, placementCluster := "", placementTags := [] }

/-- A primitive oracle: EVENTS fails with a generic error, CACHE is a
memory stream, everything else succeeds. -/
def outcomeMixed : BackupCall → Option BackupErr := fun call =>
  if call.stream = "EVENTS" then some (.other "boom")
  else if call.stream = "CACHE" then some .memoryStreamNotSupported
  else none

/-- A backup environment with three streams and the mixed oracle. -/
def envMixed : BackupEnv :=
  { streamsResult := .ok [streamA, streamB, streamC], confirm := .ok true,
    mkdirErr := none, backupOutcome := outcomeMixed }

/-- A backup environment whose account has no streams. -/
def envEmpty : BackupEnv :=
  { streamsResult := .ok [], confirm := .ok true, mkdirErr := none,
    backupOutcome := fun _ => none }

/-- Two valid artifact entries, the second of which fails to restore. -/
def entryGood : DirEntry :=
  { name := "ORDERS", isDir := true, manifestStat := true, restoreResult := none }

/-- An artifact entry whose restore fails. -/
def entryBad : DirEntry :=
  { name := "EVENTS", isDir := true, manifestStat := true, restoreResult := some "exists" }

/-- An artifact entry with no manifest file. -/
def entryNoManifest : DirEntry :=
  { name := "LATE", isDir := true, manifestStat := false, restoreResult := none }

/-- A non-directory entry (a symbolic link to a directory) whose manifest
stat nevertheless succeeds, because `os.Stat` follows the link. -/
def entryLink : DirEntry :=
  { name := "LINK", isDir := false, manifestStat := true, restoreResult := none }

/-- A restore environment: empty target account, two entries where a valid
entry precedes one lacking its manifest. -/
def envRestoreLateBad : RestoreEnv :=
  { streamNames := .ok [], readDir := .ok [entryGood, entryNoManifest] }

/-- A restore environment: empty target account, a good entry then a
failing one then another good one. -/
def envRestoreSeq : RestoreEnv :=
  { streamNames := .ok [], readDir := .ok [entryGood, entryBad, entryGood] }

/-- A restore environment whose single source entry is the symbolic link. -/
def envRestoreLink : RestoreEnv :=
  { streamNames := .ok [], readDir := .ok [entryLink] }

/-! Helper lemmas about the per-stream backup loop. -/

theorem backupLoop_calls (c : actCmd) (o : BackupCall → Option BackupErr) :
    ∀ ss : List StreamHandle,
      (backupLoop c o ss).2.2.filterMap Event.callOf = ss.map (mkBackupCall c)
  | [] => by simp [backupLoop]
  | s :: rest => by
    have ih := backupLoop_calls c o rest
    cases h : o (mkBackupCall c s) with
    | none => simp [backupLoop, h, Event.callOf, ih]
    | some e => cases e <;> simp [backupLoop, h, Event.callOf, ih]

theorem backupLoop_warnEvents (c : actCmd) (o : BackupCall → Option BackupErr) :
    ∀ ss : List StreamHandle,
      (backupLoop c o ss).2.2.filterMap Event.warnOf =
        (ss.filter fun s => isMemoryErr (o (mkBackupCall c s))).map StreamHandle.name
  | [] => by simp [backupLoop]
  | s :: rest => by
    have ih := backupLoop_warnEvents c o rest
    cases h : o (mkBackupCall c s) with
    | none => simp [backupLoop, h, Event.warnOf, isMemoryErr, ih]
    | some e => cases e <;> simp [backupLoop, h, Event.warnOf, isMemoryErr, ih]

theorem backupLoop_failEvents (c : actCmd) (o : BackupCall → Option BackupErr) :
    ∀ ss : List StreamHandle,
      (backupLoop c o ss).2.2.filterMap Event.failOf =
        (ss.filter fun s => isOtherErr (o (mkBackupCall c s))).map StreamHandle.name
  | [] => by simp [backupLoop]
  | s :: rest => by
    have ih := backupLoop_failEvents c o rest
    cases h : o (mkBackupCall c s) with
    | none => simp [backupLoop, h, Event.failOf, isOtherErr, ih]
    | some e => cases e <;> simp [backupLoop, h, Event.failOf, isOtherErr, ih]

theorem backupLoop_errs_pos (c : actCmd) (o : BackupCall → Option BackupErr) :
    ∀ ss : List StreamHandle,
      (0 < (backupLoop c o ss).1.length ↔
        ∃ s ∈ ss, isOtherErr (o (mkBackupCall c s)) = true)
  | [] => by simp [backupLoop]
  | s :: rest => by
    have ih := backupLoop_errs_pos c o rest
    cases h : o (mkBackupCall c s) with
    | none => simp [backupLoop, h, isOtherErr, ih]
    | some e => cases e <;> simp [backupLoop, h, isOtherErr, ih]

theorem backupLoop_warns_pos (c : actCmd) (o : BackupCall → Option BackupErr) :
    ∀ ss : List StreamHandle,
      (0 < (backupLoop c o ss).2.1.length ↔
        ∃ s ∈ ss, isMemoryErr (o (mkBackupCall c s)) = true)
  | [] => by simp [backupLoop]
  | s :: rest => by
    have ih := backupLoop_warns_pos c o rest
    cases h : o (mkBackupCall c s) with
    | none => simp [backupLoop, h, isMemoryErr, ih]
    | some e => cases e <;> simp [backupLoop, h, isMemoryErr, ih]

/-! Reduction of a run that reaches the per-stream phase: the account has
streams, the gate was forced or answered yes, and the root directory was
created. -/

theorem backupAction_reach_fst (c : actCmd) (env : BackupEnv)
    (streams : List StreamHandle)
    (hs : env.streamsResult = .ok streams) (hne : streams ≠ [])
    (hgate : c.force = true ∨ env.confirm = .ok true) (hmk : env.mkdirErr = none) :
    (backupAction c env).1 =
      if 0 < (backupLoop c env.backupOutcome streams).1.length ∨
          0 < (backupLoop c env.backupOutcome streams).2.1.length ∧ c.failOnWarn = true
      then .error "backup failed" else .ok () := by
  have hlen : ¬streams.length = 0 := by simpa [List.length_eq_zero] using hne
  cases hf : c.force with
  | true =>
    simp only [backupAction, hs, hlen, if_false, hf, Bool.not_true, Bool.false_eq_true,
      if_neg, backupPhase, hmk]
    split <;> split <;> simp_all
  | false =>
    rcases hgate with h | h
    · rw [hf] at h; exact absurd h (by simp)
    · simp only [backupAction, hs, hlen, if_false, hf, Bool.not_false, if_true, h,
        backupPhase, hmk]
      split <;> split <;> simp_all

theorem backupAction_reach_snd (c : actCmd) (env : BackupEnv)
    (streams : List StreamHandle)
    (hs : env.streamsResult = .ok streams) (hne : streams ≠ [])
    (hgate : c.force = true ∨ env.confirm = .ok true) (hmk : env.mkdirErr = none) :
    (backupAction c env).2 =
      [Event.summary streams.length (accumulateTotals streams).1
          (accumulateTotals streams).2]
        ++ (if c.force then [] else [Event.confirmAsked])
        ++ [Event.mkdirDone c.backupDirectory]
        ++ (backupLoop c env.backupOutcome streams).2.2 := by
  have hlen : ¬streams.length = 0 := by simpa [List.length_eq_zero] using hne
  cases hf : c.force with
  | true =>
    simp only [backupAction, hs, hlen, if_false, hf, Bool.not_true, if_true,
      backupPhase, hmk]
    split <;> split <;> simp_all
  | false =>
    rcases hgate with h | h
    · rw [hf] at h; exact absurd h (by simp)
    · simp only [backupAction, hs, hlen, if_false, hf, Bool.not_false, if_true, h,
        backupPhase, hmk]
      split <;> split <;> simp_all

/-! Helper lemmas about the totals accumulation. -/

theorem stateValue_bytes (s : StreamHandle) : s.stateValue.bytes = bytesRead s := by
  cases h : s.latestState <;> simp [StreamHandle.stateValue, bytesRead, h]

theorem stateValue_consumers (s : StreamHandle) :
    s.stateValue.consumers = consumersRead s := by
  cases h : s.latestState <;> simp [StreamHandle.stateValue, consumersRead, h]

theorem accumulateTotals_split : ∀ (streams : List StreamHandle) (a : Nat) (b : Int),
    streams.foldl
        (fun acc s => (u64add acc.1 s.stateValue.bytes, i64add acc.2 s.stateValue.consumers))
        (a, b) =
      (streams.foldl (fun acc s => u64add acc s.stateValue.bytes) a,
       streams.foldl (fun acc s => i64add acc s.stateValue.consumers) b)
  | [], _, _ => rfl
  | s :: rest, a, b => by
    simpa using accumulateTotals_split rest (u64add a s.stateValue.bytes)
      (i64add b s.stateValue.consumers)

theorem bytes_foldl : ∀ (streams : List StreamHandle) (a : Nat),
    a + (streams.map bytesRead).sum < 2 ^ 64 →
    streams.foldl (fun acc s => u64add acc s.stateValue.bytes) a =
      a + (streams.map bytesRead).sum
  | [], a, _ => by simp
  | s :: rest, a, h => by
    simp only [List.map_cons, List.sum_cons] at h
    have hb : u64add a s.stateValue.bytes = a + bytesRead s := by
      rw [u64add, stateValue_bytes]
      exact Nat.mod_eq_of_lt (by omega)
    have ih := bytes_foldl rest (a + bytesRead s) (by omega)
    simp only [List.foldl_cons, hb, ih, List.map_cons, List.sum_cons]
    omega

theorem consumers_foldl : ∀ (streams : List StreamHandle) (b : Int), 0 ≤ b →
    b + ((streams.map consumersRead).sum : Nat) < 2 ^ 63 →
    streams.foldl (fun acc s => i64add acc s.stateValue.consumers) b =
      b + ((streams.map consumersRead).sum : Nat)
  | [], b, _, _ => by simp
  | s :: rest, b, hb, h => by
    simp only [List.map_cons, List.sum_cons] at h
    have hc : i64add b s.stateValue.consumers = b + (consumersRead s : Int) := by
      rw [i64add, stateValue_consumers]
      have h1 : (0 : Int) ≤ b + (consumersRead s : Int) + 2 ^ 63 := by omega
      have h2 : b + (consumersRead s : Int) + 2 ^ 63 < 2 ^ 64 := by omega
      rw [Int.emod_eq_of_lt h1 h2]
      ring
    have ih := consumers_foldl rest (b + (consumersRead s : Int)) (by omega) (by omega)
    simp only [List.foldl_cons, hc, ih, List.map_cons, List.sum_cons]
    omega

theorem accumulateTotals_eq (streams : List StreamHandle)
    (hb : (streams.map bytesRead).sum < 2 ^ 64)
    (hc : (streams.map consumersRead).sum < 2 ^ 63) :
    accumulateTotals streams =
      ((streams.map bytesRead).sum, ((streams.map consumersRead).sum : Int)) := by
  simp only [accumulateTotals]
  rw [accumulateTotals_split]
  rw [bytes_foldl streams 0 (by omega), consumers_foldl streams 0 le_rfl (by omega)]
  simp

/-- Whatever the gate and filesystem answer, a run on a non-empty stream list
prints the aggregate summary first. -/
theorem backupAction_summary (c : actCmd) (env : BackupEnv)
    (streams : List StreamHandle)
    (hs : env.streamsResult = .ok streams) (hne : streams ≠ []) :
    (backupAction c env).2.head? =
      some (.summary streams.length (accumulateTotals streams).1
        (accumulateTotals streams).2) := by
  have hlen : ¬streams.length = 0 := by simpa [List.length_eq_zero] using hne
  rcases hf : c.force <;>
    rcases hconf : env.confirm with e | b <;>
    rcases hmk : env.mkdirErr with _ | e2 <;>
    first
      | (rcases b with _ | _ <;>
          simp [backupAction, hs, hlen, hf, hconf, hmk, backupPhase] <;>
          split <;> simp)
      | (simp [backupAction, hs, hlen, hf, hconf, hmk, backupPhase] <;>
          split <;> simp)

/-! Helper lemmas about restore validation and the restore loop. -/

theorem validateEntries_none_iff (names : List String) : ∀ de : List DirEntry,
    (validateEntries names de = none ↔
      ∀ d ∈ de, names.contains d.name = false ∧ d.manifestStat = true)
  | [] => by simp [validateEntries]
  | d :: rest => by
    have ih := validateEntries_none_iff names rest
    by_cases hc : d.name ∈ names
    · simp [validateEntries, hc]
    · by_cases hm : d.manifestStat = true <;>
        simp_all [validateEntries, hc, hm, ih]

theorem restoreLoop_calls (c : actCmd) : ∀ de : List DirEntry,
    (restoreLoop c de).2 = (takeThroughFirstFailure de).map fun d =>
      ({ backupDirectory := pathJoin c.backupDirectory d.name
         placementCluster := c.placementCluster
         placementTags := c.placementTags } : RestoreCall)
  | [] => by simp [restoreLoop, takeThroughFirstFailure]
  | d :: rest => by
    have ih := restoreLoop_calls c rest
    cases h : d.restoreResult <;>
      simp [restoreLoop, takeThroughFirstFailure, h, ih]

theorem restoreLoop_ok (c : actCmd) : ∀ de : List DirEntry,
    (∀ d ∈ de, d.restoreResult = none) → (restoreLoop c de).1 = .ok
  | [] => by simp [restoreLoop]
  | d :: rest => by
    intro h
    have hd := h d (by simp)
    have ih := restoreLoop_ok c rest (fun x hx => h x (by simp [hx]))
    simp [restoreLoop, hd, ih]

theorem restoreLoop_fatal (c : actCmd) : ∀ de : List DirEntry,
    (∃ d ∈ de, d.restoreResult ≠ none) → ∃ m, (restoreLoop c de).1 = .fatal m
  | [] => by simp
  | d :: rest => by
    intro h
    cases hd : d.restoreResult with
    | some e => exact ⟨"restore for " ++ d.name ++ " failed", by simp [restoreLoop, hd]⟩
    | none =>
      have hrest : ∃ x ∈ rest, x.restoreResult ≠ none := by
        rcases h with ⟨x, hx, hx2⟩
        rcases List.mem_cons.mp hx with rfl | hx
        · exact absurd hd hx2
        · exact ⟨x, hx, hx2⟩
      obtain ⟨m, hm⟩ := restoreLoop_fatal c rest hrest
      exact ⟨m, by simp [restoreLoop, hd, hm]⟩

/-- Reduction of a restore run whose environment answers succeed: the result
is validation followed by the restore loop. -/
theorem restoreAction_ok_env (c : actCmd) (env : RestoreEnv) (names : List String)
    (de : List DirEntry) (hn : env.streamNames = .ok names)
    (hd : env.readDir = .ok de) :
    restoreAction c env =
      match validateEntries names de with
      | some m => (.fatal m, [])
      | none => restoreLoop c de := by
  simp [restoreAction, hn, hd]

/-! Further helper lemmas about the backup phase. -/

theorem backupLoop_no_confirm (c : actCmd) (o : BackupCall → Option BackupErr) :
    ∀ ss : List StreamHandle, ∀ ev ∈ (backupLoop c o ss).2.2, ev.isConfirm = false
  | [] => by simp [backupLoop]
  | s :: rest => by
    intro ev hev
    have ih := backupLoop_no_confirm c o rest
    cases h : o (mkBackupCall c s) with
    | none =>
      simp only [backupLoop, h, List.mem_cons] at hev
      rcases hev with rfl | hev
      · rfl
      · exact ih ev hev
    | some e =>
      cases e <;>
        (simp only [backupLoop, h, List.mem_cons] at hev
         rcases hev with rfl | rfl | hev
         · rfl
         · rfl
         · exact ih ev hev)

theorem mkBackupCall_congr (c c2 : actCmd) (s : StreamHandle)
    (h1 : c2.backupDirectory = c.backupDirectory)
    (h2 : c2.healthCheck = c.healthCheck)
    (h3 : c2.snapShotConsumers = c.snapShotConsumers) :
    mkBackupCall c2 s = mkBackupCall c s := by
  simp [mkBackupCall, h1, h2, h3]

theorem backupLoop_congr (c c2 : actCmd) (o : BackupCall → Option BackupErr)
    (h1 : c2.backupDirectory = c.backupDirectory)
    (h2 : c2.healthCheck = c.healthCheck)
    (h3 : c2.snapShotConsumers = c.snapShotConsumers) :
    ∀ ss : List StreamHandle, backupLoop c2 o ss = backupLoop c o ss
  | [] => rfl
  | s :: rest => by
    have ih := backupLoop_congr c c2 o h1 h2 h3 rest
    simp only [backupLoop, ih, mkBackupCall_congr c c2 s h1 h2 h3]

theorem backupPhase_congr (c c2 : actCmd) (env env2 : BackupEnv)
    (h1 : c2.backupDirectory = c.backupDirectory)
    (h2 : c2.healthCheck = c.healthCheck)
    (h3 : c2.snapShotConsumers = c.snapShotConsumers)
    (h4 : c2.failOnWarn = c.failOnWarn)
    (h5 : env2.mkdirErr = env.mkdirErr)
    (h6 : env2.backupOutcome = env.backupOutcome)
    (streams : List StreamHandle) (tr : List Event) :
    backupPhase c2 env2 streams tr = backupPhase c env streams tr := by
  cases hmk : env.mkdirErr with
  | some e => simp only [backupPhase, h5, hmk]
  | none =>
    simp only [backupPhase, h5, hmk, h6, h1, h4,
      backupLoop_congr c c2 env.backupOutcome h1 h2 h3 streams]

theorem backupPhase_trace (c : actCmd) (env : BackupEnv)
    (streams : List StreamHandle) (tr : List Event) :
    backupPhase c env streams tr =
      ((backupPhase c env streams []).1, tr ++ (backupPhase c env streams []).2) := by
  cases hmk : env.mkdirErr <;> simp only [backupPhase, hmk] <;> (try split) <;> simp

theorem backupPhase_no_confirm (c : actCmd) (env : BackupEnv)
    (streams : List StreamHandle) :
    ∀ ev ∈ (backupPhase c env streams []).2, (!ev.isConfirm) = true := by
  intro ev hev
  have hall := backupLoop_no_confirm c env.backupOutcome streams
  cases hmk : env.mkdirErr with
  | some e => simp [backupPhase, hmk] at hev
  | none =>
    simp only [backupPhase, hmk] at hev
    split at hev <;>
      simp only [List.nil_append, List.cons_append, List.mem_cons] at hev <;>
      rcases hev with rfl | hev <;>
      first
        | rfl
        | simp [hall ev hev]

/-- A forced run, re-run with the force flag cleared and an affirmative gate,
performs the same phase work with the gate event inserted. -/
theorem backupAction_force_eq (c : actCmd) (env : BackupEnv)
    (streams : List StreamHandle)
    (hs : env.streamsResult = .ok streams) (hne : streams ≠ []) :
    backupAction { c with force := false } { env with confirm := .ok true } =
      ((backupPhase c env streams []).1,
       [Event.summary streams.length (accumulateTotals streams).1
          (accumulateTotals streams).2, Event.confirmAsked]
         ++ (backupPhase c env streams []).2) := by
  have hlen : ¬streams.length = 0 := by simpa [List.length_eq_zero] using hne
  rcases c with ⟨dir, hcc, sc, fo, fw, pc, pt⟩
  rcases env with ⟨es, ec, em, eo⟩
  simp only at hs
  subst hs
  simp only [backupAction, hlen, if_false]
  rw [backupPhase_congr ⟨dir, hcc, sc, fo, fw, pc, pt⟩ ⟨dir, hcc, sc, false, fw, pc, pt⟩
    ⟨Except.ok streams, ec, em, eo⟩ ⟨Except.ok streams, Except.ok true, em, eo⟩
    rfl rfl rfl rfl rfl rfl streams _]
  rw [backupPhase_trace]
  simp

/-! The claims. -/

/-- C1: for every backup run that reaches the per-stream backup phase (the
account has streams, the gate was forced or answered yes, and the root
directory was created), the final result is failure if and only if at least
one stream produced a Failure, or at least one stream produced a Warning and
the failOnWarning flag is set; otherwise the run succeeds, even when some
streams were skipped with Warnings. -/
theorem backup_final_result_iff (c : actCmd) (env : BackupEnv)
    (streams : List StreamHandle)
    (hs : env.streamsResult = .ok streams) (hne : streams ≠ [])
    (hgate : c.force = true ∨ env.confirm = .ok true)
    (hmk : env.mkdirErr = none) :
    (∃ e, (backupAction c env).1 = .error e) ↔
      ((∃ s ∈ streams, isOtherErr (env.backupOutcome (mkBackupCall c s)) = true) ∨
       ((∃ s ∈ streams, isMemoryErr (env.backupOutcome (mkBackupCall c s)) = true) ∧
         c.failOnWarn = true)) := by
  rw [backupAction_reach_fst c env streams hs hne hgate hmk,
    ← backupLoop_errs_pos c env.backupOutcome streams,
    ← backupLoop_warns_pos c env.backupOutcome streams]
  split
  · next h => exact iff_of_true ⟨"backup failed", rfl⟩ h
  · next h => exact iff_of_false (by simp) h

/-- Witness for C1: a concrete three-stream run with one Failure. -/
theorem backup_final_result_iff_witness :
    (∃ e, (backupAction cmdBase envMixed).1 = .error e) ↔
      ((∃ s ∈ [streamA, streamB, streamC],
          isOtherErr (envMixed.backupOutcome (mkBackupCall cmdBase s)) = true) ∨
       ((∃ s ∈ [streamA, streamB, streamC],
          isMemoryErr (envMixed.backupOutcome (mkBackupCall cmdBase s)) = true) ∧
         cmdBase.failOnWarn = true)) :=
  backup_final_result_iff cmdBase envMixed [streamA, streamB, streamC] rfl
    (by simp) (Or.inr rfl) rfl

/-- C6: a backup run against an account with zero streams always aborts with
the error message `no streams found`, and its trace is empty: no directory is
created and no primitive is invoked. -/
theorem backup_no_streams (c : actCmd) (env : BackupEnv)
    (hs : env.streamsResult = .ok []) :
    backupAction c env = (.error "no streams found", []) := by
  simp [backupAction, hs]

/-- Witness for C6 at a concrete environment with no streams. -/
theorem backup_no_streams_witness :
    backupAction cmdBase envEmpty = (.error "no streams found", []) :=
  backup_no_streams cmdBase envEmpty rfl

/-- C10: whenever a run that reached the per-stream phase returns an error,
the error is the constant message `backup failed`, independent of which or
how many streams failed or warned. -/
theorem backup_error_message_constant (c : actCmd) (env : BackupEnv)
    (streams : List StreamHandle)
    (hs : env.streamsResult = .ok streams) (hne : streams ≠ [])
    (hgate : c.force = true ∨ env.confirm = .ok true)
    (hmk : env.mkdirErr = none) (e : String)
    (he : (backupAction c env).1 = .error e) : e = "backup failed" := by
  rw [backupAction_reach_fst c env streams hs hne hgate hmk] at he
  split at he
  · injection he with h
    exact h.symm
  · simp at he

/-- Witness for C10: the concrete mixed run errors with `backup failed`. -/
theorem backup_error_message_constant_witness : "backup failed" = "backup failed" :=
  backup_error_message_constant cmdBase envMixed [streamA, streamB, streamC] rfl
    (by simp) (Or.inr rfl) rfl "backup failed" rfl

/-- C3: in a run that reaches the per-stream phase, the Backup Primitive is
invoked once per stream, in order, regardless of outcomes (no per-stream
error aborts the batch); the memory-stream sentinel is recorded as a Warning,
any other error as a Failure, and a stream with no error is recorded as
neither. -/
theorem backup_per_stream_classification (c : actCmd) (env : BackupEnv)
    (streams : List StreamHandle)
    (hs : env.streamsResult = .ok streams) (hne : streams ≠ [])
    (hgate : c.force = true ∨ env.confirm = .ok true)
    (hmk : env.mkdirErr = none) :
    (backupAction c env).2.filterMap Event.callOf = streams.map (mkBackupCall c) ∧
    (backupAction c env).2.filterMap Event.warnOf =
      (streams.filter fun s => isMemoryErr (env.backupOutcome (mkBackupCall c s))).map
        StreamHandle.name ∧
    (backupAction c env).2.filterMap Event.failOf =
      (streams.filter fun s => isOtherErr (env.backupOutcome (mkBackupCall c s))).map
        StreamHandle.name := by
  refine ⟨?_, ?_, ?_⟩ <;>
    (rw [backupAction_reach_snd c env streams hs hne hgate hmk]
     cases c.force <;>
       simp [List.filterMap_append, Event.callOf, Event.warnOf, Event.failOf,
         backupLoop_calls, backupLoop_warnEvents, backupLoop_failEvents])

/-- Witness for C3: the concrete three-stream mixed run. -/
theorem backup_per_stream_classification_witness :
    (backupAction cmdBase envMixed).2.filterMap Event.callOf =
      [streamA, streamB, streamC].map (mkBackupCall cmdBase) ∧
    (backupAction cmdBase envMixed).2.filterMap Event.warnOf =
      ([streamA, streamB, streamC].filter fun s =>
        isMemoryErr (envMixed.backupOutcome (mkBackupCall cmdBase s))).map
          StreamHandle.name ∧
    (backupAction cmdBase envMixed).2.filterMap Event.failOf =
      ([streamA, streamB, streamC].filter fun s =>
        isOtherErr (envMixed.backupOutcome (mkBackupCall cmdBase s))).map
          StreamHandle.name :=
  backup_per_stream_classification cmdBase envMixed [streamA, streamB, streamC] rfl
    (by simp) (Or.inr rfl) rfl

/-- C8: in a run that reaches the per-stream phase, the Backup Primitive is
invoked exactly once per enumerated stream with target directory
root/streamName, verifyHealth equal to the healthCheck flag, includeConsumers
equal to the consumers flag, and includeSubjectFilters false. -/
theorem backup_primitive_invocation (c : actCmd) (env : BackupEnv)
    (streams : List StreamHandle)
    (hs : env.streamsResult = .ok streams) (hne : streams ≠ [])
    (hgate : c.force = true ∨ env.confirm = .ok true)
    (hmk : env.mkdirErr = none) :
    (backupAction c env).2.filterMap Event.callOf =
      streams.map fun s =>
        ({ stream := s.name
           verifyHealth := c.healthCheck
           includeConsumers := c.snapShotConsumers
           includeSubjectFilters := false
           targetDir := c.backupDirectory ++ "/" ++ s.name } : BackupCall) := by
  rw [backupAction_reach_snd c env streams hs hne hgate hmk]
  cases c.force <;>
    simp [List.filterMap_append, Event.callOf, backupLoop_calls, mkBackupCall, pathJoin]

/-- Witness for C8 at the concrete mixed run. -/
theorem backup_primitive_invocation_witness :
    (backupAction cmdBase envMixed).2.filterMap Event.callOf =
      [streamA, streamB, streamC].map fun s =>
        ({ stream := s.name
           verifyHealth := cmdBase.healthCheck
           includeConsumers := cmdBase.snapShotConsumers
           includeSubjectFilters := false
           targetDir := cmdBase.backupDirectory ++ "/" ++ s.name } : BackupCall) :=
  backup_primitive_invocation cmdBase envMixed [streamA, streamB, streamC] rfl
    (by simp) (Or.inr rfl) rfl

/-- C9: the aggregate totals presented for confirmation are the plain sums of
the per-stream byte counts and consumer counts over all enumerated streams
(as long as they fit a machine word), where a stream whose state query failed
contributes zero to both; no state-query failure aborts enumeration. -/
theorem backup_totals_are_sums (c : actCmd) (env : BackupEnv)
    (streams : List StreamHandle)
    (hs : env.streamsResult = .ok streams) (hne : streams ≠ [])
    (hb : (streams.map bytesRead).sum < 2 ^ 64)
    (hc : (streams.map consumersRead).sum < 2 ^ 63) :
    (backupAction c env).2.head? =
      some (.summary streams.length (streams.map bytesRead).sum
        ((streams.map consumersRead).sum : Int)) := by
  rw [backupAction_summary c env streams hs hne, accumulateTotals_eq streams hb hc]

/-- Witness for C9: the concrete run where the second stream's state query
fails and contributes zero. -/
theorem backup_totals_are_sums_witness :
    (backupAction cmdBase envMixed).2.head? =
      some (.summary [streamA, streamB, streamC].length
        ([streamA, streamB, streamC].map bytesRead).sum
        (([streamA, streamB, streamC].map consumersRead).sum : Int)) :=
  backup_totals_are_sums cmdBase envMixed [streamA, streamB, streamC] rfl
    (by simp) (by decide) (by decide)

/-- C7: unless force is set, the confirmation gate is invoked before any
filesystem change; a negative answer ends the run with a success result and
no filesystem change (in particular the destination root is not created); a
gate failure aborts the run with that error and no filesystem change; with
force set the gate is never invoked and the run proceeds exactly as if the
gate had answered yes. -/
theorem backup_confirmation_gate (c : actCmd) (env : BackupEnv)
    (streams : List StreamHandle)
    (hs : env.streamsResult = .ok streams) (hne : streams ≠ []) :
    (c.force = false →
      ((backupAction c env).2.any fun ev => ev.isConfirm) = true ∧
      (((backupAction c env).2.takeWhile fun ev => !ev.isConfirm).all
        fun ev => !ev.isFsChange) = true ∧
      (match env.confirm with
       | .error e => (backupAction c env).1 = .error e ∧
           ((backupAction c env).2.all fun ev => !ev.isFsChange) = true
       | .ok false => (backupAction c env).1 = .ok () ∧
           ((backupAction c env).2.all fun ev => !ev.isFsChange) = true
       | .ok true => True)) ∧
    (c.force = true →
      ((backupAction c env).2.all fun ev => !ev.isConfirm) = true ∧
      backupAction c env =
        ((backupAction { c with force := false } { env with confirm := .ok true }).1,
         (backupAction { c with force := false }
             { env with confirm := .ok true }).2.filter fun ev => !ev.isConfirm)) := by
  have hlen : ¬streams.length = 0 := by simpa [List.length_eq_zero] using hne
  constructor
  · intro hf
    rcases hconf : env.confirm with e | b
    · simp [backupAction, hs, hlen, hf, hconf, Event.isConfirm, Event.isFsChange,
        List.takeWhile_cons]
    · cases b with
      | false =>
        simp [backupAction, hs, hlen, hf, hconf, Event.isConfirm, Event.isFsChange,
          List.takeWhile_cons]
      | true =>
        have hrun : backupAction c env =
            ((backupPhase c env streams []).1,
             [Event.summary streams.length (accumulateTotals streams).1
                (accumulateTotals streams).2, Event.confirmAsked]
               ++ (backupPhase c env streams []).2) := by
          simp only [backupAction, hs, hlen, if_false, hf, Bool.not_false, if_true,
            hconf]
          rw [backupPhase_trace]
          simp
        refine ⟨?_, ?_, trivial⟩
        · rw [hrun]
          simp [Event.isConfirm]
        · rw [hrun]
          simp [List.takeWhile_cons, Event.isConfirm, Event.isFsChange]
  · intro hf
    have hrunF : backupAction c env =
        ((backupPhase c env streams []).1,
         [Event.summary streams.length (accumulateTotals streams).1
            (accumulateTotals streams).2]
           ++ (backupPhase c env streams []).2) := by
      simp only [backupAction, hs, hlen, if_false, hf, Bool.not_true,
        Bool.false_eq_true, ite_false]
      rw [backupPhase_trace]
    have hrunT := backupAction_force_eq c env streams hs hne
    constructor
    · rw [hrunF]
      simp only [List.all_append, List.all_cons, List.all_nil, Bool.and_true,
        Event.isConfirm, Bool.not_false, Bool.true_and, List.all_eq_true]
      intro ev hev
      simpa using backupPhase_no_confirm c env streams ev hev
    · rw [hrunF, hrunT]
      dsimp only
      rw [List.filter_append,
        List.filter_eq_self.mpr (backupPhase_no_confirm c env streams)]
      simp [Event.isConfirm]

/-- Witness for C7 at a concrete no-force environment with an affirmative
gate answer. -/
theorem backup_confirmation_gate_witness :
    (cmdBase.force = false →
      ((backupAction cmdBase envMixed).2.any fun ev => ev.isConfirm) = true ∧
      (((backupAction cmdBase envMixed).2.takeWhile fun ev => !ev.isConfirm).all
        fun ev => !ev.isFsChange) = true ∧
      (match envMixed.confirm with
       | .error e => (backupAction cmdBase envMixed).1 = .error e ∧
           ((backupAction cmdBase envMixed).2.all fun ev => !ev.isFsChange) = true
       | .ok false => (backupAction cmdBase envMixed).1 = .ok () ∧
           ((backupAction cmdBase envMixed).2.all fun ev => !ev.isFsChange) = true
       | .ok true => True)) ∧
    (cmdBase.force = true →
      ((backupAction cmdBase envMixed).2.all fun ev => !ev.isConfirm) = true ∧
      backupAction cmdBase envMixed =
        ((backupAction { cmdBase with force := false }
            { envMixed with confirm := .ok true }).1,
         (backupAction { cmdBase with force := false }
             { envMixed with confirm := .ok true }).2.filter
           fun ev => !ev.isConfirm)) :=
  backup_confirmation_gate cmdBase envMixed [streamA, streamB, streamC] rfl (by simp)

/-- C2: if any entry of the source root collides with an existing stream
name on the target account or lacks its backup.json manifest — wherever it
appears in enumeration order — the restore run aborts fatally and performs
zero restore-primitive invocations. -/
theorem restore_validation_abort (c : actCmd) (env : RestoreEnv)
    (names : List String) (de : List DirEntry)
    (hn : env.streamNames = .ok names) (hd : env.readDir = .ok de)
    (hbad : ∃ d ∈ de, names.contains d.name = true ∨ d.manifestStat = false) :
    (∃ m, (restoreAction c env).1 = .fatal m) ∧ (restoreAction c env).2 = [] := by
  rw [restoreAction_ok_env c env names de hn hd]
  cases hv : validateEntries names de with
  | some m => exact ⟨⟨m, rfl⟩, rfl⟩
  | none =>
    rw [validateEntries_none_iff] at hv
    exfalso
    rcases hbad with ⟨d, hdm, hb | hb⟩
    · rw [(hv d hdm).1] at hb
      exact Bool.noConfusion hb
    · rw [(hv d hdm).2] at hb
      exact Bool.noConfusion hb

/-- Witness for C2: a valid entry precedes the entry lacking a manifest, yet
nothing is restored. -/
theorem restore_validation_abort_witness :
    (∃ m, (restoreAction cmdBase envRestoreLateBad).1 = .fatal m) ∧
      (restoreAction cmdBase envRestoreLateBad).2 = [] :=
  restore_validation_abort cmdBase envRestoreLateBad [] [entryGood, entryNoManifest]
    rfl rfl ⟨entryNoManifest, by simp, Or.inr rfl⟩

/-- C4: once validation passes, restoration walks the artifact directories in
the same enumeration order, handing each the same placement constraint
(cluster and tags); the attempted entries are exactly the prefix up to and
including the first failing restore, a fully successful list yields a
successful run, and any failure makes the whole run fatal. -/
theorem restore_order_first_failure (c : actCmd) (env : RestoreEnv)
    (names : List String) (de : List DirEntry)
    (hn : env.streamNames = .ok names) (hd : env.readDir = .ok de)
    (hok : ∀ d ∈ de, names.contains d.name = false ∧ d.manifestStat = true) :
    (restoreAction c env).2 = (takeThroughFirstFailure de).map (fun d =>
      ({ backupDirectory := c.backupDirectory ++ "/" ++ d.name
         placementCluster := c.placementCluster
         placementTags := c.placementTags } : RestoreCall)) ∧
    ((∀ d ∈ de, d.restoreResult = none) → (restoreAction c env).1 = .ok) ∧
    ((∃ d ∈ de, d.restoreResult ≠ none) →
      ∃ m, (restoreAction c env).1 = .fatal m) := by
  rw [restoreAction_ok_env c env names de hn hd,
    (validateEntries_none_iff names de).mpr hok]
  refine ⟨?_, ?_, ?_⟩
  · simpa [pathJoin] using restoreLoop_calls c de
  · exact restoreLoop_ok c de
  · exact restoreLoop_fatal c de

/-- Witness for C4: a good entry, then a failing one, then one that is never
attempted. -/
theorem restore_order_first_failure_witness :
    (restoreAction cmdBase envRestoreSeq).2 =
      (takeThroughFirstFailure [entryGood, entryBad, entryGood]).map (fun d =>
        ({ backupDirectory := cmdBase.backupDirectory ++ "/" ++ d.name
           placementCluster := cmdBase.placementCluster
           placementTags := cmdBase.placementTags } : RestoreCall)) ∧
    ((∀ d ∈ [entryGood, entryBad, entryGood], d.restoreResult = none) →
      (restoreAction cmdBase envRestoreSeq).1 = .ok) ∧
    ((∃ d ∈ [entryGood, entryBad, entryGood], d.restoreResult ≠ none) →
      ∃ m, (restoreAction cmdBase envRestoreSeq).1 = .fatal m) :=
  restore_order_first_failure cmdBase envRestoreSeq [] [entryGood, entryBad, entryGood]
    rfl rfl (by decide)

/-- C5 (refuted — code bug): the non-directory branch of restore validation
executes `fisk.FatalIfError(err, "expected a directory")` on the `err`
variable that was already nil-checked after `os.ReadDir`, a no-op, so a
non-directory entry is not rejected.  Concretely, a source root whose only
entry is a symbolic link to a directory containing `backup.json`
(`IsDir() = false`, manifest stat succeeds, no name collision) passes
validation and is restored: the run succeeds and performs one restore. -/
theorem restore_nondir_entry_is_restored :
    restoreAction cmdBase envRestoreLink =
      (.ok, [{ backupDirectory := "backups/LINK", placementCluster := "",
               placementTags := [] }]) := rfl

end NatsCli
